import Mathlib

/-!
Verification of the HackHub client-side registration reconciliation,
analytics aggregation and status-derivation logic, shallowly embedded from
`client/src/utils/api.js`, the `AnalyticsModal` component, the
`FacultyDashboard` page and the shared date utilities.
-/

namespace HackHub

/-- A registration record as built by `registerForHackathon` and stored in the
`myRegistrations` local cache (`api.js`): composite id, hackathon id, user id,
registration timestamp, status and denormalized hackathon title. -/
structure Registration where
  id : String
  hackathon_id : String
  user_id : String
  registration_date : String
  status : String
  hackathon_title : String
  deriving DecidableEq, Repr

/-- First index in `l` of a record whose `hackathon_id` equals `k`; embeds the
JS `self.findIndex(r => r.hackathon_id === reg.hackathon_id)` call inside
`getUserRegistrations`. -/
def firstIdxWithKey (l : List Registration) (k : String) : Nat :=
  l.findIdx (fun r => r.hackathon_id == k)

/-- The deduplication scan of `getUserRegistrations` (`api.js` lines 244-246):
`allRegistrations.filter((reg, index, self) =>
  index === self.findIndex(r => r.hackathon_id === reg.hackathon_id))`,
keeping the element at position `i` exactly when `i` is the first position
holding its `hackathon_id`. -/
def dedupByHackathonId (l : List Registration) : List Registration :=
  (l.enum.filter (fun p => p.1 == firstIdxWithKey l p.2.hackathon_id)).map Prod.snd

/-- `getUserRegistrations` (`api.js` lines 231-255).  The remote
`/users/registrations` call is modelled by `remoteResult`: `some remote` when
the call succeeds with list `remote` (the code's
`response.data?.registrations || []`), `none` when it throws.  On success the
backend list is concatenated before the local cache and deduplicated by
`hackathon_id`; on failure the catch block returns the local cache alone. -/
def getUserRegistrations (remoteResult : Option (List Registration))
    (localRegistrations : List Registration) : List Registration :=
  match remoteResult with
  | some backendRegistrations =>
      dedupByHackathonId (backendRegistrations ++ localRegistrations)
  | none => localRegistrations

/-- Proof-side recursion for the dedup scan: walk the list keeping a record
exactly when its `hackathon_id` has not been seen before.  Proved equal to
`dedupByHackathonId` in `dedupByHackathonId_eq_aux`. -/
def dedupAux (seen : List String) : List Registration → List Registration
  | [] => []
  | r :: rs =>
    if r.hackathon_id ∈ seen then dedupAux seen rs
    else r :: dedupAux (r.hackathon_id :: seen) rs

theorem dedupAux_congr : ∀ (l : List Registration) (seen seen' : List String),
    (∀ k, k ∈ seen ↔ k ∈ seen') → dedupAux seen l = dedupAux seen' l
  | [], _, _, _ => rfl
  | r :: rs, seen, seen', h => by
    by_cases hm : r.hackathon_id ∈ seen
    · rw [dedupAux, dedupAux, if_pos hm, if_pos ((h _).mp hm),
        dedupAux_congr rs seen seen' h]
    · rw [dedupAux, dedupAux, if_neg hm, if_neg (fun c => hm ((h _).mpr c)),
        dedupAux_congr rs (r.hackathon_id :: seen) (r.hackathon_id :: seen')
          (by intro k; simp [h k])]

theorem firstIdxWithKey_append (A B : List Registration) (k : String) :
    firstIdxWithKey (A ++ B) k =
      if k ∈ A.map (·.hackathon_id) then firstIdxWithKey A k
      else A.length + firstIdxWithKey B k := by
  induction A with
  | nil => simp [firstIdxWithKey]
  | cons a A ih =>
    by_cases h : a.hackathon_id = k
    · simp [firstIdxWithKey, List.findIdx_cons, h]
    · have hne : (a.hackathon_id == k) = false := by simp [h]
      have hstep : firstIdxWithKey ((a :: A) ++ B) k = firstIdxWithKey (A ++ B) k + 1 := by
        simp [firstIdxWithKey, List.findIdx_cons, hne]
      have hstepA : firstIdxWithKey (a :: A) k = firstIdxWithKey A k + 1 := by
        simp [firstIdxWithKey, List.findIdx_cons, hne]
      have hmem : k ∈ (a :: A).map (·.hackathon_id) ↔ k ∈ A.map (·.hackathon_id) := by
        simp only [List.map_cons, List.mem_cons]
        exact or_iff_right (fun c => h c.symm)
      rw [hstep, ih]
      by_cases hk : k ∈ A.map (·.hackathon_id)
      · rw [if_pos hk, if_pos (hmem.mpr hk), hstepA]
      · rw [if_neg hk, if_neg (fun c => hk (hmem.mp c)), List.length_cons]
        omega

theorem dedup_enumFrom_eq : ∀ (B A : List Registration),
    ((List.enumFrom A.length B).filter
        (fun p => p.1 == firstIdxWithKey (A ++ B) p.2.hackathon_id)).map Prod.snd
      = dedupAux (A.map (·.hackathon_id)) B
  | [], A => by simp [dedupAux]
  | r :: rs, A => by
    have tail_eq :
        ((List.enumFrom (A.length + 1) rs).filter
            (fun p => p.1 == firstIdxWithKey (A ++ r :: rs) p.2.hackathon_id)).map Prod.snd
          = dedupAux (A.map (·.hackathon_id) ++ [r.hackathon_id]) rs := by
      have h := dedup_enumFrom_eq rs (A ++ [r])
      simpa using h
    simp only [List.enumFrom_cons, List.filter_cons]
    by_cases hk : r.hackathon_id ∈ A.map (·.hackathon_id)
    · have hidx : firstIdxWithKey (A ++ r :: rs) r.hackathon_id
          = firstIdxWithKey A r.hackathon_id := by
        rw [firstIdxWithKey_append, if_pos hk]
      have hlt : firstIdxWithKey A r.hackathon_id < A.length := by
        apply List.findIdx_lt_length_of_exists
        rcases List.mem_map.mp hk with ⟨x, hx, hkey⟩
        exact ⟨x, hx, by simp [hkey]⟩
      have hcond : ¬ ((A.length == firstIdxWithKey (A ++ r :: rs) r.hackathon_id) = true) := by
        rw [hidx]
        simp only [beq_iff_eq]
        omega
      rw [if_neg hcond, tail_eq]
      simp only [dedupAux, if_pos hk]
      exact dedupAux_congr rs (A.map (·.hackathon_id) ++ [r.hackathon_id])
        (A.map (·.hackathon_id))
        (fun k => by
          simp only [List.mem_append, List.mem_singleton]
          exact or_iff_left_iff_imp.mpr (fun hx => by rw [hx]; exact hk))
    · have hidx : firstIdxWithKey (A ++ r :: rs) r.hackathon_id = A.length := by
        rw [firstIdxWithKey_append, if_neg hk]
        simp [firstIdxWithKey, List.findIdx_cons]
      have hcond : (A.length == firstIdxWithKey (A ++ r :: rs) r.hackathon_id) = true := by
        rw [hidx]
        exact beq_self_eq_true _
      rw [if_pos hcond]
      simp only [List.map_cons, tail_eq]
      simp only [dedupAux, if_neg hk]
      refine congrArg (r :: ·) ?_
      exact dedupAux_congr rs (A.map (·.hackathon_id) ++ [r.hackathon_id])
        (r.hackathon_id :: A.map (·.hackathon_id))
        (fun k => by simp [or_comm])

theorem dedupByHackathonId_eq_aux (l : List Registration) :
    dedupByHackathonId l = dedupAux [] l := by
  have h := dedup_enumFrom_eq l []
  simpa [dedupByHackathonId, List.enum_eq_enumFrom] using h

theorem mem_dedupAux {x : Registration} :
    ∀ (l : List Registration) (seen : List String),
      x ∈ dedupAux seen l → x ∈ l ∧ x.hackathon_id ∉ seen
  | [], _, h => by simp [dedupAux] at h
  | r :: rs, seen, h => by
    by_cases hm : r.hackathon_id ∈ seen
    · rw [dedupAux, if_pos hm] at h
      rcases mem_dedupAux rs seen h with ⟨h1, h2⟩
      exact ⟨List.mem_cons_of_mem _ h1, h2⟩
    · rw [dedupAux, if_neg hm] at h
      rcases List.mem_cons.mp h with h1 | h1
      · exact ⟨by rw [h1]; exact List.mem_cons_self _ _, by rw [h1]; exact hm⟩
      · rcases mem_dedupAux rs _ h1 with ⟨h2, h3⟩
        refine ⟨List.mem_cons_of_mem _ h2, fun c => h3 ?_⟩
        exact List.mem_cons_of_mem _ c

theorem dedupAux_pairwise :
    ∀ (l : List Registration) (seen : List String),
      (dedupAux seen l).Pairwise (fun a b => a.hackathon_id ≠ b.hackathon_id)
  | [], _ => List.Pairwise.nil
  | r :: rs, seen => by
    by_cases hm : r.hackathon_id ∈ seen
    · rw [dedupAux, if_pos hm]
      exact dedupAux_pairwise rs seen
    · rw [dedupAux, if_neg hm]
      refine List.pairwise_cons.mpr ⟨?_, dedupAux_pairwise rs _⟩
      intro y hy
      have h := (mem_dedupAux rs _ hy).2
      exact fun c => h (by rw [← c]; exact List.mem_cons_self _ _)

theorem key_mem_dedupAux :
    ∀ (l : List Registration) (seen : List String) (k : String),
      k ∈ l.map (·.hackathon_id) → k ∉ seen →
      k ∈ (dedupAux seen l).map (·.hackathon_id)
  | [], _, _, h, _ => by simp at h
  | r :: rs, seen, k, h, hns => by
    rw [List.map_cons] at h
    by_cases hm : r.hackathon_id ∈ seen
    · rw [dedupAux, if_pos hm]
      have hk : k ∈ rs.map (·.hackathon_id) := by
        rcases List.mem_cons.mp h with h1 | h1
        · exact absurd (show k ∈ seen by rw [h1]; exact hm) hns
        · exact h1
      exact key_mem_dedupAux rs seen k hk hns
    · rw [dedupAux, if_neg hm]
      rcases List.mem_cons.mp h with h1 | h1
      · rw [List.map_cons]
        exact List.mem_cons.mpr (Or.inl h1)
      · by_cases hkr : k = r.hackathon_id
        · rw [List.map_cons]
          exact List.mem_cons.mpr (Or.inl hkr)
        · have := key_mem_dedupAux rs (r.hackathon_id :: seen) k h1
            (fun c => by
              rcases List.mem_cons.mp c with h2 | h2
              exacts [hkr h2, hns h2])
          rw [List.map_cons]
          exact List.mem_cons.mpr (Or.inr this)

theorem dedupAux_find? {x : Registration} :
    ∀ (l : List Registration) (seen : List String), x ∈ dedupAux seen l →
      l.find? (fun r => r.hackathon_id == x.hackathon_id) = some x
  | [], _, h => by simp [dedupAux] at h
  | r :: rs, seen, h => by
    by_cases hm : r.hackathon_id ∈ seen
    · rw [dedupAux, if_pos hm] at h
      have hxs := (mem_dedupAux rs seen h).2
      have hne : (r.hackathon_id == x.hackathon_id) = false := by
        simp only [beq_eq_false_iff_ne, ne_eq]
        exact fun c => hxs (c ▸ hm)
      rw [List.find?_cons, hne]
      exact dedupAux_find? rs seen h
    · rw [dedupAux, if_neg hm] at h
      rcases List.mem_cons.mp h with h1 | h1
      · rw [List.find?_cons, h1, beq_self_eq_true]
      · have hxs := (mem_dedupAux rs _ h1).2
        have hne : (r.hackathon_id == x.hackathon_id) = false := by
          simp only [beq_eq_false_iff_ne, ne_eq]
          exact fun c => hxs (by rw [← c]; exact List.mem_cons_self _ _)
        rw [List.find?_cons, hne]
        exact dedupAux_find? rs _ h1

theorem dedupAux_sublist :
    ∀ (l : List Registration) (seen : List String), (dedupAux seen l).Sublist l
  | [], _ => List.Sublist.refl _
  | r :: rs, seen => by
    by_cases hm : r.hackathon_id ∈ seen
    · rw [dedupAux, if_pos hm]
      exact (dedupAux_sublist rs seen).cons r
    · rw [dedupAux, if_neg hm]
      exact (dedupAux_sublist rs _).cons₂ r

theorem dedupAux_mem_left {x : Registration} :
    ∀ (A B : List Registration) (seen : List String),
      x ∈ dedupAux seen (A ++ B) → x.hackathon_id ∈ A.map (·.hackathon_id) →
      x ∈ A
  | [], _, _, _, hk => by simp at hk
  | a :: A, B, seen, h, hk => by
    rw [List.cons_append] at h
    rw [List.map_cons] at hk
    by_cases hm : a.hackathon_id ∈ seen
    · rw [dedupAux, if_pos hm] at h
      have hxs := (mem_dedupAux _ seen h).2
      have hxa : x.hackathon_id ≠ a.hackathon_id := fun c => hxs (c ▸ hm)
      have hk' : x.hackathon_id ∈ A.map (·.hackathon_id) := by
        rcases List.mem_cons.mp hk with h1 | h1
        · exact absurd h1 hxa
        · exact h1
      exact List.mem_cons_of_mem _ (dedupAux_mem_left A B seen h hk')
    · rw [dedupAux, if_neg hm] at h
      rcases List.mem_cons.mp h with h1 | h1
      · rw [h1]; exact List.mem_cons_self _ _
      · have hxs := (mem_dedupAux _ _ h1).2
        have hxa : x.hackathon_id ≠ a.hackathon_id :=
          fun c => hxs (by rw [c]; exact List.mem_cons_self _ _)
        have hk' : x.hackathon_id ∈ A.map (·.hackathon_id) := by
          rcases List.mem_cons.mp hk with h2 | h2
          · exact absurd h2 hxa
          · exact h2
        exact List.mem_cons_of_mem _ (dedupAux_mem_left A B _ h1 hk')

theorem pairwise_filter_key_le_one {k : String} :
    ∀ l : List Registration,
      l.Pairwise (fun a b => a.hackathon_id ≠ b.hackathon_id) →
      (l.filter (fun r => r.hackathon_id == k)).length ≤ 1
  | [], _ => by simp
  | r :: rs, h => by
    rcases List.pairwise_cons.mp h with ⟨hhead, htail⟩
    by_cases hr : r.hackathon_id = k
    · have hnil : rs.filter (fun r => r.hackathon_id == k) = [] := by
        rw [List.filter_eq_nil_iff]
        intro a ha
        simp only [beq_iff_eq]
        exact fun c => hhead a ha (by rw [hr, c])
      simp [List.filter_cons, hr, hnil]
    · have : (r.hackathon_id == k) = false := by simp [hr]
      rw [List.filter_cons, if_neg (by simp [this])]
      exact pairwise_filter_key_le_one rs htail

/-- Shape of a response body as returned by the registration endpoints and by
the locally fabricated fallback of `unregisterFromHackathon`. -/
structure ApiResponse where
  message : String
  success : Bool
  deriving DecidableEq, Repr

/-- Outcome of an axios call, as scrutinised by the catch blocks of `api.js`:
a 2xx response carrying a body; `error.code === 'ECONNABORTED'` (timeout);
`error.response` present, carrying a status and an optional `detail` field;
`error.request` present but no response received; or any other JS error
(request setup failure) carrying its message. -/
inductive RemoteOutcome where
  | ok (resp : ApiResponse)
  | timeout
  | httpErr (status : Nat) (detail : Option String)
  | noResponse
  | jsError (msg : String)
  deriving DecidableEq, Repr

/-- `registerForHackathon` (`api.js` lines 125-193).  `user` is
`auth.currentUser` (`some uid` when logged in), `remote` the outcome of the
`api.post` call, `store` the `myRegistrations` localStorage array and `nowIso`
the `new Date().toISOString()` value.  Returns the thrown error message or the
response, paired with the localStorage contents after the call.  When no user
is logged in, the function throws before any network request, and the catch
block rethrows the same error (no `code`, `response` or `request` field); the
`mockRegistration` backup record is appended to the store only on the success
path, after `await api.post` resolves. -/
def registerForHackathon (user : Option String) (id : String)
    (dataTitle : Option String) (remote : RemoteOutcome)
    (store : List Registration) (nowIso : String) :
    Except String ApiResponse × List Registration :=
  match user with
  | none => (Except.error ("Please login to register for hackathons"), store)
  | some uid =>
    match remote with
    | RemoteOutcome.ok resp =>
        let mockRegistration : Registration :=
          { id := id ++ "_" ++ uid
            hackathon_id := id
            user_id := uid
            registration_date := nowIso
            status := "registered"
            hackathon_title := dataTitle.getD ("Registered Hackathon") }
        (Except.ok resp, store ++ [mockRegistration])
    | RemoteOutcome.timeout =>
        (Except.error ("Request timeout - please try again"), store)
    | RemoteOutcome.httpErr status detail =>
        if status == 401 then
          (Except.error ("Authentication failed - please login again"), store)
        else if status == 403 then
          (Except.error ("Access denied - please check your permissions"), store)
        else if status == 400 then
          (Except.error (detail.getD ("Invalid request")), store)
        else if status == 404 then
          (Except.error ("Hackathon not found"), store)
        else if status == 408 then
          (Except.error ("Authentication timeout - please try again"), store)
        else
          (Except.error (detail.getD ("Registration failed")), store)
    | RemoteOutcome.noResponse =>
        (Except.error ("No response from server - please check your connection"), store)
    | RemoteOutcome.jsError msg => (Except.error msg, store)

/-- `unregisterFromHackathon` (`api.js` lines 196-225).  Both the success path
and the catch block filter every record with the given `hackathon_id` out of
the localStorage cache; the catch block swallows the error and fabricates a
local success response, so no branch produces `Except.error`. -/
def unregisterFromHackathon (id : String) (remote : RemoteOutcome)
    (store : List Registration) :
    Except String (ApiResponse × List Registration) :=
  match remote with
  | RemoteOutcome.ok resp =>
      Except.ok (resp, store.filter (fun reg => !(reg.hackathon_id == id)))
  | _ =>
      Except.ok
        ({ message := "Successfully unregistered from hackathon (local)",
           success := true },
         store.filter (fun reg => !(reg.hackathon_id == id)))

/-- `getHackathonStatus(startDate, endDate, registrationDeadline)` from the
shared date utilities.  Dates are modelled as integer epoch milliseconds
(JS `Date` comparisons are numeric); the `new Date()` the function reads is
made the explicit argument `now`. -/
def getHackathonStatus (now startDate endDate registrationDeadline : Int) : String :=
  if now > endDate then "completed"
  else if now ≥ startDate ∧ now ≤ endDate then "ongoing"
  else if now > registrationDeadline then "registration_closed"
  else "upcoming"

/-- The fields of a hackathon object used by the dashboard analytics
(`AnalyticsModal`, `FacultyDashboard.calculateStats`); `participants` is
optional because the code reads it as `h.participants?.length || 0`. -/
structure Hackathon where
  id : String
  title : String
  status : String
  participants : Option (List String)
  deriving DecidableEq, Repr

/-- `h.participants?.length || 0`. -/
def participantCount (h : Hackathon) : Nat :=
  match h.participants with
  | some l => l.length
  | none => 0

/-- `hackathons.reduce((sum, h) => sum + (h.participants?.length || 0), 0)`,
shared by `AnalyticsModal` and `FacultyDashboard.calculateStats`. -/
def totalRegistrations (hackathons : List Hackathon) : Nat :=
  hackathons.foldl (fun sum h => sum + participantCount h) 0

/-- The stats object produced by `FacultyDashboard.calculateStats`. -/
structure Stats where
  totalHackathons : Nat
  totalRegistrations : Nat
  activeHackathons : Nat
  completedHackathons : Nat
  deriving DecidableEq, Repr

/-- `calculateStats` (`FacultyDashboard.js` lines 60-71). -/
def calculateStats (hackathonData : List Hackathon) : Stats :=
  { totalHackathons := hackathonData.length
    totalRegistrations := totalRegistrations hackathonData
    activeHackathons := (hackathonData.filter (fun h => h.status == "ongoing")).length
    completedHackathons := (hackathonData.filter (fun h => h.status == "completed")).length }

/-- `hackathons.reduce((max, h) =>
  (h.participants?.length || 0) > (max.participants?.length || 0) ? h : max,
  hackathons[0] || \x7b\x7d)` from `AnalyticsModal`.  The reduce starts from
`hackathons[0]` and scans the whole list again; on an empty list the initial
value is the empty placeholder object, modelled as `none`. -/
def mostPopular : List Hackathon → Option Hackathon
  | [] => none
  | h :: t =>
      some ((h :: t).foldl
        (fun mx x => if participantCount x > participantCount mx then x else mx) h)

/-- Proof-side recursion for the `mostPopular` reduce. -/
def runMax (a : Hackathon) : List Hackathon → Hackathon
  | [] => a
  | x :: l => runMax (if participantCount x > participantCount a then x else a) l

theorem foldl_eq_runMax : ∀ (l : List Hackathon) (a : Hackathon),
    l.foldl (fun mx x => if participantCount x > participantCount mx then x else mx) a
      = runMax a l
  | [], _ => rfl
  | x :: l, a => by
    rw [List.foldl_cons, runMax, foldl_eq_runMax l]

theorem mostPopular_eq_runMax (h : Hackathon) (t : List Hackathon) :
    mostPopular (h :: t) = some (runMax h t) := by
  rw [mostPopular, foldl_eq_runMax, runMax, if_neg (lt_irrefl _)]

theorem runMax_le : ∀ (l : List Hackathon) (a : Hackathon),
    participantCount a ≤ participantCount (runMax a l) ∧
    ∀ x ∈ l, participantCount x ≤ participantCount (runMax a l)
  | [], a => ⟨le_refl _, by intro x hx; simp at hx⟩
  | b :: l, a => by
    rw [runMax]
    by_cases hb : participantCount b > participantCount a
    · rw [if_pos hb]
      rcases runMax_le l b with ⟨h1, h2⟩
      refine ⟨le_of_lt (lt_of_lt_of_le hb h1), ?_⟩
      intro x hx
      rcases List.mem_cons.mp hx with h3 | h3
      · rw [h3]; exact h1
      · exact h2 x h3
    · rw [if_neg hb]
      rcases runMax_le l a with ⟨h1, h2⟩
      refine ⟨h1, ?_⟩
      intro x hx
      rcases List.mem_cons.mp hx with h3 | h3
      · rw [h3]; exact le_trans (le_of_not_lt hb) h1
      · exact h2 x h3

theorem runMax_find? : ∀ (l : List Hackathon) (a : Hackathon),
    (a :: l).find?
        (fun x => participantCount (runMax a l) ≤ participantCount x)
      = some (runMax a l)
  | [], a => by
    rw [runMax]
    exact List.find?_cons_of_pos _ (by simp)
  | b :: l, a => by
    rw [runMax]
    by_cases hb : participantCount b > participantCount a
    · rw [if_pos hb]
      have hble := (runMax_le l b).1
      have hna : ¬ participantCount (runMax b l) ≤ participantCount a := by
        omega
      rw [List.find?_cons_of_neg _ (by simpa using hna)]
      exact runMax_find? l b
    · rw [if_neg hb]
      have ih := runMax_find? l a
      by_cases hpa : participantCount (runMax a l) ≤ participantCount a
      · have ha : runMax a l = a := by
          rw [List.find?_cons_of_pos _ (by simpa using hpa)] at ih
          exact (Option.some.inj ih).symm
        rw [List.find?_cons_of_pos _ (by simpa using hpa), ha]
      · have hnb : ¬ participantCount (runMax a l) ≤ participantCount b := by
          have hba : participantCount b ≤ participantCount a := le_of_not_lt hb
          omega
        rw [List.find?_cons_of_neg _ (by simpa using hpa) ] at ih
        rw [List.find?_cons_of_neg _ (by simpa using hpa),
          List.find?_cons_of_neg _ (by simpa using hnb)]
        exact ih

/-- Sample registration for hackathon `h1` by user `u1`. -/
def regA : Registration :=
  { id := "h1_u1", hackathon_id := "h1", user_id := "u1",
    registration_date := "2024-01-01", status := "registered",
    hackathon_title := "Alpha" }

/-- Sample registration for hackathon `h1` by user `u2` (same hackathon as
`regA`, different record). -/
def regB : Registration :=
  { id := "h1_u2", hackathon_id := "h1", user_id := "u2",
    registration_date := "2024-01-02", status := "registered",
    hackathon_title := "Alpha" }

/-- Sample registration for hackathon `h2` by user `u1`. -/
def regC : Registration :=
  { id := "h2_u1", hackathon_id := "h2", user_id := "u1",
    registration_date := "2024-01-03", status := "registered",
    hackathon_title := "Beta" }

/-- C1: for every pair of registration lists (remote, local), the reconciled
list returned by `getUserRegistrations` is the concatenation of remote then
local deduplicated by hackathon identifier keeping the first occurrence: it is
an order-preserving subselection of `remote ++ local`, it carries exactly the
hackathon ids of `remote ++ local`, each of its entries is the first occurrence
of its id in `remote ++ local`, no two of its entries share a hackathon id, and
an entry whose id occurs in `remote` comes from `remote`, so a remote entry
wins over a local entry with the same hackathon identifier. -/
theorem getUserRegistrations_merge_dedup (remote localRegs : List Registration) :
    (getUserRegistrations (some remote) localRegs).Sublist (remote ++ localRegs) ∧
    (getUserRegistrations (some remote) localRegs).Pairwise
      (fun a b => a.hackathon_id ≠ b.hackathon_id) ∧
    (∀ k, k ∈ (remote ++ localRegs).map (·.hackathon_id) ↔
      k ∈ (getUserRegistrations (some remote) localRegs).map (·.hackathon_id)) ∧
    (∀ x ∈ getUserRegistrations (some remote) localRegs,
      (remote ++ localRegs).find? (fun r => r.hackathon_id == x.hackathon_id)
        = some x) ∧
    (∀ x ∈ getUserRegistrations (some remote) localRegs,
      x.hackathon_id ∈ remote.map (·.hackathon_id) → x ∈ remote) := by
  have hun : getUserRegistrations (some remote) localRegs
      = dedupAux [] (remote ++ localRegs) := by
    rw [show getUserRegistrations (some remote) localRegs
        = dedupByHackathonId (remote ++ localRegs) from rfl,
      dedupByHackathonId_eq_aux]
  rw [hun]
  refine ⟨dedupAux_sublist _ _, dedupAux_pairwise _ _, ?_, ?_, ?_⟩
  · intro k
    constructor
    · intro hk
      exact key_mem_dedupAux _ _ _ hk (by simp)
    · intro hk
      rcases List.mem_map.mp hk with ⟨x, hx, hkey⟩
      exact List.mem_map.mpr ⟨x, (mem_dedupAux _ _ hx).1, hkey⟩
  · intro x hx
    exact dedupAux_find? _ _ hx
  · intro x hx hk
    exact dedupAux_mem_left _ _ _ hx hk

theorem getUserRegistrations_merge_dedup_witness :
    ([regA] ++ [regB, regC]).find?
        (fun r => r.hackathon_id == regA.hackathon_id) = some regA :=
  (getUserRegistrations_merge_dedup [regA] [regB, regC]).2.2.2.1 regA (by decide)

/-- C2: for every non-empty remote registration list and every local list,
every hackathon identifier present in the remote list appears in the
reconciled output of `getUserRegistrations`. -/
theorem remote_ids_in_reconciled (remote localRegs : List Registration)
    (_hne : remote ≠ []) :
    ∀ k ∈ remote.map (·.hackathon_id),
      k ∈ (getUserRegistrations (some remote) localRegs).map (·.hackathon_id) := by
  intro k hk
  have hun : getUserRegistrations (some remote) localRegs
      = dedupAux [] (remote ++ localRegs) := by
    rw [show getUserRegistrations (some remote) localRegs
        = dedupByHackathonId (remote ++ localRegs) from rfl,
      dedupByHackathonId_eq_aux]
  rw [hun]
  refine key_mem_dedupAux _ _ _ ?_ (by simp)
  rw [List.map_append]
  exact List.mem_append_left _ hk

theorem remote_ids_in_reconciled_witness :
    "h1" ∈ (getUserRegistrations (some [regA]) [regC]).map (·.hackathon_id) :=
  remote_ids_in_reconciled [regA] [regC] (by simp) "h1" (by decide)

/-- C3: if the remote `listRegistrations` call fails (throws), the catch block
of `getUserRegistrations` swallows the error and returns exactly the local
cached registration list; no error reaches the caller. -/
theorem getUserRegistrations_remote_failure (localRegs : List Registration) :
    getUserRegistrations none localRegs = localRegs := rfl

/-- C5: `getHackathonStatus` classifies into exactly one of four states in
priority order with first match winning: completed when `now > end`, else
ongoing when `start ≤ now ≤ end`, else registration_closed when
`now > deadline`, else upcoming; and at `start = T+1d`, `end = T+3d`,
`deadline = T+12h`, `now = T+2d` (milliseconds) the result is ongoing even
though `now > deadline`. -/
theorem getHackathonStatus_priority :
    (∀ now s e d : Int,
      (e < now → getHackathonStatus now s e d = "completed") ∧
      (s ≤ now → now ≤ e → getHackathonStatus now s e d = "ongoing") ∧
      (now ≤ e → now < s → d < now →
        getHackathonStatus now s e d = "registration_closed") ∧
      (now ≤ e → now < s → now ≤ d → getHackathonStatus now s e d = "upcoming")) ∧
    (∀ T : Int,
      getHackathonStatus (T + 172800000) (T + 86400000) (T + 259200000)
          (T + 43200000) = "ongoing" ∧
      T + 43200000 < T + 172800000) := by
  constructor
  · intro now s e d
    refine ⟨?_, ?_, ?_, ?_⟩
    · intro h
      rw [getHackathonStatus, if_pos (by omega)]
    · intro h1 h2
      rw [getHackathonStatus, if_neg (by omega), if_pos (by omega)]
    · intro h1 h2 h3
      rw [getHackathonStatus, if_neg (by omega), if_neg (by omega),
        if_pos (by omega)]
    · intro h1 h2 h3
      rw [getHackathonStatus, if_neg (by omega), if_neg (by omega),
        if_neg (by omega)]
  · intro T
    refine ⟨?_, by omega⟩
    rw [getHackathonStatus, if_neg (by omega), if_pos (by omega)]

theorem getHackathonStatus_priority_witness :
    getHackathonStatus 2 1 3 0 = "ongoing" ∧
    (getHackathonStatus (0 + 172800000) (0 + 86400000) (0 + 259200000)
        (0 + 43200000) = "ongoing" ∧
      (0 : Int) + 43200000 < 0 + 172800000) :=
  ⟨(getHackathonStatus_priority.1 2 1 3 0).2.1 (by decide) (by decide),
    getHackathonStatus_priority.2 0⟩

/-- C6: aggregation over an empty hackathon list succeeds and yields all-zero
counts (total, total registrations, ongoing, completed) and no most-popular
record. -/
theorem analytics_empty :
    calculateStats [] =
      { totalHackathons := 0, totalRegistrations := 0,
        activeHackathons := 0, completedHackathons := 0 } ∧
    totalRegistrations ([] : List Hackathon) = 0 ∧
    mostPopular [] = none :=
  ⟨rfl, rfl, rfl⟩

/-- C7: for every non-empty hackathon list, `mostPopular` returns a record of
the list attaining the maximum participant count, and it is the first element
whose count reaches that maximum (ties broken by list order). -/
theorem mostPopular_first_max (hs : List Hackathon) (hne : hs ≠ []) :
    ∃ m, mostPopular hs = some m ∧ m ∈ hs ∧
      (∀ x ∈ hs, participantCount x ≤ participantCount m) ∧
      hs.find? (fun x => participantCount m ≤ participantCount x) = some m := by
  match hs, hne with
  | h :: t, _ =>
    refine ⟨runMax h t, mostPopular_eq_runMax h t, ?_, ?_, runMax_find? t h⟩
    · exact List.mem_of_find?_eq_some (runMax_find? t h)
    · intro x hx
      rcases List.mem_cons.mp hx with h1 | h1
      · rw [h1]
        exact (runMax_le t h).1
      · exact (runMax_le t h).2 x h1

/-- Hackathon with 50 registered participants. -/
def hackA : Hackathon :=
  { id := "a", title := "Alpha", status := "ongoing",
    participants := some (List.replicate 50 "p") }

/-- Hackathon with 2 registered participants. -/
def hackB : Hackathon :=
  { id := "b", title := "Beta", status := "completed",
    participants := some ["p1", "p2"] }

theorem mostPopular_first_max_witness :
    participantCount hackB ≤ participantCount hackA := by
  rcases mostPopular_first_max [hackA, hackB] (by simp) with ⟨m, hm, -, hbound, -⟩
  have hma : m = hackA :=
    Option.some.inj (hm.symm.trans (by decide))
  rw [← hma]
  exact hbound hackB (by simp)

/-- C8: `registerForHackathon` maps each failure condition to its distinct
thrown message: a missing authenticated identity short-circuits before any
network call with the login prompt (the result does not depend on the remote
outcome); timeout, 401, 403, 404, 408 and no-response map to fixed messages;
400 surfaces the server-supplied detail verbatim; any other error status
surfaces the server detail, or a generic registration-failed message when no
detail is supplied. -/
theorem registerForHackathon_error_taxonomy (uid id : String)
    (dataTitle : Option String) (store : List Registration) (nowIso : String) :
    (∀ remote, (registerForHackathon none id dataTitle remote store nowIso).1
        = Except.error ("Please login to register for hackathons")) ∧
    (registerForHackathon (some uid) id dataTitle RemoteOutcome.timeout
        store nowIso).1
      = Except.error ("Request timeout - please try again") ∧
    (∀ detail, (registerForHackathon (some uid) id dataTitle
        (RemoteOutcome.httpErr 401 detail) store nowIso).1
      = Except.error ("Authentication failed - please login again")) ∧
    (∀ detail, (registerForHackathon (some uid) id dataTitle
        (RemoteOutcome.httpErr 403 detail) store nowIso).1
      = Except.error ("Access denied - please check your permissions")) ∧
    (∀ d, (registerForHackathon (some uid) id dataTitle
        (RemoteOutcome.httpErr 400 (some d)) store nowIso).1
      = Except.error d) ∧
    (∀ detail, (registerForHackathon (some uid) id dataTitle
        (RemoteOutcome.httpErr 404 detail) store nowIso).1
      = Except.error ("Hackathon not found")) ∧
    (∀ detail, (registerForHackathon (some uid) id dataTitle
        (RemoteOutcome.httpErr 408 detail) store nowIso).1
      = Except.error ("Authentication timeout - please try again")) ∧
    (∀ s detail, s ≠ 401 → s ≠ 403 → s ≠ 400 → s ≠ 404 → s ≠ 408 →
      (registerForHackathon (some uid) id dataTitle
          (RemoteOutcome.httpErr s detail) store nowIso).1
        = Except.error (detail.getD ("Registration failed"))) ∧
    (registerForHackathon (some uid) id dataTitle RemoteOutcome.noResponse
        store nowIso).1
      = Except.error ("No response from server - please check your connection") := by
  refine ⟨fun remote => rfl, rfl, fun detail => rfl, fun detail => rfl,
    fun d => rfl, fun detail => rfl, fun detail => rfl, ?_, rfl⟩
  intro s detail h1 h2 h3 h4 h5
  simp only [registerForHackathon]
  rw [if_neg (by simp [h1]), if_neg (by simp [h2]), if_neg (by simp [h3]),
    if_neg (by simp [h4]), if_neg (by simp [h5])]

theorem registerForHackathon_error_taxonomy_witness :
    (registerForHackathon (some "u1") "h1" none
        (RemoteOutcome.httpErr 500 (some "boom")) [] "t").1
      = Except.error ("boom") :=
  (registerForHackathon_error_taxonomy "u1" "h1" none [] "t").2.2.2.2.2.2.2.1
    500 (some "boom") (by decide) (by decide) (by decide) (by decide) (by decide)

/-- C9: `unregisterFromHackathon` never propagates an error: for every remote
outcome it returns a success-shaped response together with a cache from which
every record carrying the given hackathon identifier was removed; when the
remote call fails, the response is the locally fabricated success message. -/
theorem unregisterFromHackathon_never_fails (id : String)
    (remote : RemoteOutcome) (store : List Registration) :
    ∃ resp store',
      unregisterFromHackathon id remote store = Except.ok (resp, store') ∧
      store' = store.filter (fun reg => !(reg.hackathon_id == id)) ∧
      (∀ r ∈ store', r.hackathon_id ≠ id) ∧
      ((∀ r0, remote ≠ RemoteOutcome.ok r0) →
        resp = { message := "Successfully unregistered from hackathon (local)",
                 success := true }) := by
  have hmem : ∀ r ∈ store.filter (fun reg => !(reg.hackathon_id == id)),
      r.hackathon_id ≠ id := by
    intro r hr
    have h := (List.mem_filter.mp hr).2
    simpa using h
  cases remote with
  | ok resp => exact ⟨resp, _, rfl, rfl, hmem, fun hno => absurd rfl (hno resp)⟩
  | timeout => exact ⟨_, _, rfl, rfl, hmem, fun _ => rfl⟩
  | httpErr s detail => exact ⟨_, _, rfl, rfl, hmem, fun _ => rfl⟩
  | noResponse => exact ⟨_, _, rfl, rfl, hmem, fun _ => rfl⟩
  | jsError m => exact ⟨_, _, rfl, rfl, hmem, fun _ => rfl⟩

theorem unregisterFromHackathon_never_fails_witness :
    unregisterFromHackathon "h1" RemoteOutcome.noResponse [regA, regC]
      = Except.ok
          ({ message := "Successfully unregistered from hackathon (local)",
             success := true }, [regC]) := by
  obtain ⟨resp, store', heq, hfil, -, hfail⟩ :=
    unregisterFromHackathon_never_fails "h1" RemoteOutcome.noResponse [regA, regC]
  have h1 := hfail (fun r0 h => nomatch h)
  have h2 : store' = [regC] := by
    rw [hfil]
    decide
  rw [heq, h1, h2]

/-- C10: a successful `registerForHackathon` always appends a fresh record to
the local cache without checking for an existing record with the same
hackathon identifier: two successful register calls for the same hackathon add
two records for that (hackathon, user) pair, and uniqueness of the identifier
holds only in the deduplicated output of `getUserRegistrations`. -/
theorem register_appends_without_uniqueness (uid id : String)
    (dataTitle : Option String) (store : List Registration) (nowIso : String)
    (resp1 resp2 : ApiResponse) :
    (registerForHackathon (some uid) id dataTitle (RemoteOutcome.ok resp1)
        store nowIso).2
      = store ++
        [{ id := id ++ "_" ++ uid, hackathon_id := id, user_id := uid,
           registration_date := nowIso, status := "registered",
           hackathon_title := dataTitle.getD ("Registered Hackathon") }] ∧
    (((registerForHackathon (some uid) id dataTitle (RemoteOutcome.ok resp2)
          (registerForHackathon (some uid) id dataTitle (RemoteOutcome.ok resp1)
            store nowIso).2 nowIso).2).filter
        (fun r => r.hackathon_id == id)).length
      = (store.filter (fun r => r.hackathon_id == id)).length + 2 ∧
    (∀ remote,
      ((getUserRegistrations (some remote)
          (registerForHackathon (some uid) id dataTitle (RemoteOutcome.ok resp2)
            (registerForHackathon (some uid) id dataTitle (RemoteOutcome.ok resp1)
              store nowIso).2 nowIso).2).filter
        (fun r => r.hackathon_id == id)).length ≤ 1) := by
  refine ⟨rfl, ?_, ?_⟩
  · have h2 :
        (registerForHackathon (some uid) id dataTitle (RemoteOutcome.ok resp2)
            (registerForHackathon (some uid) id dataTitle (RemoteOutcome.ok resp1)
              store nowIso).2 nowIso).2
          = (store ++
              [{ id := id ++ "_" ++ uid, hackathon_id := id, user_id := uid,
                 registration_date := nowIso, status := "registered",
                 hackathon_title := dataTitle.getD ("Registered Hackathon") }]) ++
            [{ id := id ++ "_" ++ uid, hackathon_id := id, user_id := uid,
               registration_date := nowIso, status := "registered",
               hackathon_title := dataTitle.getD ("Registered Hackathon") }] := rfl
    rw [h2, List.filter_append, List.filter_append]
    simp
  · intro remote
    have hun : getUserRegistrations (some remote)
        (registerForHackathon (some uid) id dataTitle (RemoteOutcome.ok resp2)
          (registerForHackathon (some uid) id dataTitle (RemoteOutcome.ok resp1)
            store nowIso).2 nowIso).2
        = dedupAux [] (remote ++
            (registerForHackathon (some uid) id dataTitle (RemoteOutcome.ok resp2)
              (registerForHackathon (some uid) id dataTitle (RemoteOutcome.ok resp1)
                store nowIso).2 nowIso).2) := by
      rw [show getUserRegistrations (some remote)
          (registerForHackathon (some uid) id dataTitle (RemoteOutcome.ok resp2)
            (registerForHackathon (some uid) id dataTitle (RemoteOutcome.ok resp1)
              store nowIso).2 nowIso).2
          = dedupByHackathonId (remote ++
              (registerForHackathon (some uid) id dataTitle (RemoteOutcome.ok resp2)
                (registerForHackathon (some uid) id dataTitle (RemoteOutcome.ok resp1)
                  store nowIso).2 nowIso).2) from rfl,
        dedupByHackathonId_eq_aux]
    rw [hun]
    exact pairwise_filter_key_le_one _ (dedupAux_pairwise _ _)

/-- C4 as stated fails on the code: the `mockRegistration` backup write of
`registerForHackathon` happens only after `await api.post` resolves, so when
the remote call throws (offline), the local cache gains nothing, and a
subsequent successful `listRegistrations` call omitting `X` yields a merged
result without `X`.  Concrete counterexample with an empty initial cache. -/
theorem register_offline_no_cache_write :
    (registerForHackathon (some "u1") "X" none RemoteOutcome.noResponse []
        "2024-01-01").2 = [] ∧
    "X" ∉ (getUserRegistrations (some [])
        (registerForHackathon (some "u1") "X" none RemoteOutcome.noResponse []
          "2024-01-01").2).map (·.hackathon_id) :=
  ⟨rfl, by decide⟩

/-- C4 amended: the local cache is written only when the remote call succeeds.
On every throwing outcome the cache is unchanged, while on a successful call
it gains a record for the hackathon, so a later successful `listRegistrations`
call omitting that hackathon still yields it in the merged result of
`getUserRegistrations`. -/
theorem register_cache_write_on_success (uid id : String)
    (dataTitle : Option String) (store : List Registration) (nowIso : String) :
    (∀ remote, (∀ resp, remote ≠ RemoteOutcome.ok resp) →
      (registerForHackathon (some uid) id dataTitle remote store nowIso).2
        = store) ∧
    (∀ resp remote2,
      id ∈ (getUserRegistrations (some remote2)
          (registerForHackathon (some uid) id dataTitle (RemoteOutcome.ok resp)
            store nowIso).2).map (·.hackathon_id)) := by
  constructor
  · intro remote hno
    cases remote with
    | ok resp => exact absurd rfl (hno resp)
    | timeout => rfl
    | httpErr s detail =>
        simp only [registerForHackathon]
        split_ifs <;> rfl
    | noResponse => rfl
    | jsError m => rfl
  · intro resp remote2
    have hs : (registerForHackathon (some uid) id dataTitle (RemoteOutcome.ok resp)
        store nowIso).2
        = store ++
          [{ id := id ++ "_" ++ uid, hackathon_id := id, user_id := uid,
             registration_date := nowIso, status := "registered",
             hackathon_title := dataTitle.getD ("Registered Hackathon") }] := rfl
    have hun : getUserRegistrations (some remote2)
        (registerForHackathon (some uid) id dataTitle (RemoteOutcome.ok resp)
          store nowIso).2
        = dedupAux [] (remote2 ++
            (registerForHackathon (some uid) id dataTitle (RemoteOutcome.ok resp)
              store nowIso).2) := by
      rw [show getUserRegistrations (some remote2)
          (registerForHackathon (some uid) id dataTitle (RemoteOutcome.ok resp)
            store nowIso).2
          = dedupByHackathonId (remote2 ++
              (registerForHackathon (some uid) id dataTitle (RemoteOutcome.ok resp)
                store nowIso).2) from rfl,
        dedupByHackathonId_eq_aux]
    rw [hun]
    refine key_mem_dedupAux _ _ _ ?_ (by simp)
    rw [hs, List.map_append, List.map_append]
    refine List.mem_append_right _ (List.mem_append_right _ ?_)
    simp

theorem register_cache_write_on_success_witness :
    (registerForHackathon (some "u1") "h1" none RemoteOutcome.timeout []
        "t").2 = [] ∧
    "h1" ∈ (getUserRegistrations (some [])
        (registerForHackathon (some "u1") "h1" none
          (RemoteOutcome.ok { message := "ok", success := true }) [] "t").2).map
        (·.hackathon_id) :=
  ⟨(register_cache_write_on_success "u1" "h1" none [] "t").1
      RemoteOutcome.timeout (fun _ h => nomatch h),
    (register_cache_write_on_success "u1" "h1" none [] "t").2
      { message := "ok", success := true } []⟩
